import Mathlib

/-!
Shallow embedding of `src/hyndman_khandakar.py` (class `HyndmanKhandakar`).

Modelling conventions:
* Python floats are modelled as `ℚ`; `np.inf` (the incumbent-AICc sentinel) as
  `⊤ : WithTop ℚ`.
* Python exceptions are modelled by `Except PyError`; an uncaught exception
  propagates as `.error`.
* The two external collaborators (the unit-root tests and the statsmodels
  ARIMA fitting procedure) are oracles:
  - `tests : Nat → ℚ × ℚ` returns the `(p_adf, p_kpss)` pair produced by
    `sm.tsa.stattools.adfuller` / `kpss` on the series differenced `level`
    times (the series itself only enters the algorithm through these values);
  - `fit : Order3 → Trend → FitResult` returns either a failure signal
    (statsmodels raising `ValueError`) or the fitted model's
    `aic` together with the moduli `np.abs(model.arroots)`,
    `np.abs(model.maroots)` of the AR and MA characteristic roots (the
    model object only enters the algorithm through these values).
* `verbose` only controls warning display and the `disp` keyword of the
  fitting collaborator; it has no effect on control flow and is omitted.
-/

namespace HK

/- Batteries marks rational arithmetic `@[irreducible]`, which blocks
`decide` on concrete runs; restore the default reducibility so witnesses
can be evaluated. -/
set_option allowUnsafeReducibility true in
attribute [semireducible] Rat.mul

set_option allowUnsafeReducibility true in
attribute [semireducible] Rat.add

set_option allowUnsafeReducibility true in
attribute [semireducible] Rat.sub

set_option allowUnsafeReducibility true in
attribute [semireducible] Rat.inv

/-- Decidable equality for `Except`, so runs can be evaluated on concrete
inputs. -/
instance {ε α : Type} [DecidableEq ε] [DecidableEq α] :
    DecidableEq (Except ε α)
  | .error e, .error e' =>
    if h : e = e' then .isTrue (by rw [h]) else .isFalse (by simp [h])
  | .error _, .ok _ => .isFalse (by simp)
  | .ok _, .error _ => .isFalse (by simp)
  | .ok a, .ok a' =>
    if h : a = a' then .isTrue (by rw [h]) else .isFalse (by simp [h])

/-- Python exceptions that can arise in the embedded code. -/
inductive PyError where
  | attributeError
  | zeroDivisionError
  | valueError
  | recursionError
deriving DecidableEq, Repr

/-- The `trend` argument: `"c"` (constant) or `"nc"` (no constant). -/
inductive Trend where
  | c
  | nc
deriving DecidableEq, Repr

/-- An order tuple `(p, d, q)` as passed to `sm.tsa.ARIMA` (Python ints). -/
structure Order3 where
  p : Int
  d : Int
  q : Int
deriving DecidableEq, Repr

/-- The `self.order` dict `{"p": _, "d": _, "q": _, "trend": _}`. -/
structure OrderDict where
  p : Int
  d : Int
  q : Int
  trend : Trend
deriving DecidableEq, Repr

/-- What the core reads off a successfully fitted statsmodels model:
its AIC and the moduli of its AR and MA characteristic roots. -/
structure FittedModel where
  aic : ℚ
  arRootModuli : List ℚ
  maRootModuli : List ℚ
deriving DecidableEq, Repr

/-- Outcome of one call to the ARIMA fitting collaborator:
`failure` models statsmodels raising `ValueError` for this order/trend. -/
inductive FitResult where
  | failure
  | success (fm : FittedModel)
deriving DecidableEq, Repr

/-- The instance attributes assigned by `HyndmanKhandakar.__init__`
(lines 51-61), plus the two attributes that other methods use:
`dAttr` models the attribute `self.d`, which `__init__` never assigns —
hence `Option Int`, `none` meaning "attribute missing" (reading it raises
`AttributeError`); `pValues` models `self.p_values` as an association list
keyed by degree. `conditions` is split into its two components. -/
structure HKState where
  ts : List ℚ
  alpha : ℚ
  maxOrder : Int
  minRootModulus : ℚ
  fullSearch : Bool
  model : Option FittedModel
  order : OrderDict
  aicc : WithTop ℚ
  dAttr : Option Int
  pValues : List (Int × ℚ × ℚ)
deriving DecidableEq

/-- The state built by `__init__`: it stores its arguments and the sentinel
incumbent (`model = None`, `order = {"p": 0, "d": 0, "q": 0, "trend": "nc"}`,
`aicc = np.inf`, empty `p_values`); `self.d` is not assigned. -/
def initState (ts : List ℚ) (alpha : ℚ) (conditions : Int × ℚ)
    (fullSearch : Bool) : HKState :=
  { ts := ts
    alpha := alpha
    maxOrder := conditions.1
    minRootModulus := conditions.2
    fullSearch := fullSearch
    model := none
    order := { p := 0, d := 0, q := 0, trend := Trend.nc }
    aicc := ⊤
    dAttr := none
    pValues := [] }

/-- `HyndmanKhandakar.__init__` (lines 51-61). The body is a sequence of
attribute assignments and contains no validation and no statement that can
raise, so construction always succeeds; the `Except` codomain records that
construction *could* in principle fail, which it never does. -/
def init (ts : List ℚ) (alpha : ℚ) (conditions : Int × ℚ)
    (fullSearch : Bool) : Except PyError HKState :=
  .ok (initState ts alpha conditions fullSearch)

/-- The inner recursive function `_test` of `_get_differencing_degree`
(lines 70-84), as a function of the recursion depth `fuel` (modelling
Python's recursion limit; the top-level call uses 1000, Python's default),
the differencing `level` (how many times the series has been differenced;
the series only enters through `tests level`), the current `self.d`
attribute and the current `self.p_values`.

Source, line by line: obtain `p_adf`, `p_kpss` from the collaborators;
if `p_kpss < self.alpha or p_adf >= self.alpha` then read `self.d`
(raising `AttributeError` when the attribute is missing); if it equals 2,
warn and return; otherwise record the p-values under key `self.d`,
increment `self.d`, and recurse on the differenced series. -/
def _testFuel (tests : Nat → ℚ × ℚ) (alpha : ℚ) :
    Nat → Nat → Option Int → List (Int × ℚ × ℚ) →
      Except PyError (Option Int × List (Int × ℚ × ℚ))
  | 0, _, _, _ => .error .recursionError
  | fuel + 1, level, dAttr, pvals =>
    let p_adf := (tests level).1
    let p_kpss := (tests level).2
    if p_kpss < alpha ∨ alpha ≤ p_adf then
      match dAttr with
      | none => .error .attributeError
      | some dv =>
        if dv = 2 then
          .ok (some dv, pvals)
        else
          _testFuel tests alpha fuel (level + 1) (some (dv + 1))
            (pvals ++ [(dv, p_adf, p_kpss)])
    else
      .ok (dAttr, pvals)

/-- `_get_differencing_degree` (lines 63-91): calls `_test(self.ts)`; the
`catch_warnings` wrapper only suppresses display and is omitted. -/
def _get_differencing_degree (tests : Nat → ℚ × ℚ) (st : HKState) :
    Except PyError HKState :=
  match _testFuel tests st.alpha 1000 0 st.dAttr st.pValues with
  | .error e => .error e
  | .ok (d, pv) => .ok { st with dAttr := d, pValues := pv }

/-- `k = 1 if trend == "c" else 0` (line 113). -/
def kOf (trend : Trend) : Int :=
  if trend = Trend.c then 1 else 0

/-- The local `n = order[0] + order[2] + k + 1` of `_correct_aic`
(line 114); written `m` to avoid clashing with the sample size. -/
def mOf (order : Order3) (trend : Trend) : Int :=
  order.p + order.q + kOf trend + 1

/-- The denominator `len(self.ts) - n - 1` of the correction (line 115). -/
def denomOf (tsLen : Nat) (order : Order3) (trend : Trend) : Int :=
  (tsLen : Int) - mOf order trend - 1

/-- The value `aic + 2 * n * (n + 1) / (len(self.ts) - n - 1)` returned on
line 115 (well defined whenever the denominator is nonzero). -/
def aiccVal (tsLen : Nat) (order : Order3) (trend : Trend) (aic : ℚ) : ℚ :=
  aic + ((2 * mOf order trend * (mOf order trend + 1) : Int) : ℚ) /
    ((denomOf tsLen order trend : Int) : ℚ)

/-- `_correct_aic` (lines 93-115): Python raises `ZeroDivisionError` when
the denominator is zero, otherwise returns the corrected value. -/
def _correct_aic (st : HKState) (order : Order3) (trend : Trend) (aic : ℚ) :
    Except PyError ℚ :=
  if denomOf st.ts.length order trend = 0 then
    .error .zeroDivisionError
  else
    .ok (aiccVal st.ts.length order trend aic)

/-- Lines 132-134: `invertible = all(np.abs(model.arroots) > conditions[1])`,
`stationary = all(np.abs(model.maroots) > conditions[1])`, combined as
`invertible and stationary`. -/
def rootsOk (c : ℚ) (fm : FittedModel) : Bool :=
  (fm.arRootModuli.all fun r => decide (c < r)) &&
    (fm.maRootModuli.all fun r => decide (c < r))

/-- The body of `_fit` after the fitting collaborator succeeded
(lines 130-140): compute `aicc`; if `aicc < self.aicc` and both root checks
pass, store model, order fields, trend and aicc; otherwise leave the state
unchanged. -/
def _fit (st : HKState) (order : Order3) (trend : Trend) (fm : FittedModel) :
    Except PyError HKState :=
  match _correct_aic st order trend fm.aic with
  | .error e => .error e
  | .ok aicc =>
    if (aicc : WithTop ℚ) < st.aicc then
      if rootsOk st.minRootModulus fm = true then
        .ok { st with
              model := some fm
              order := { p := order.p, d := order.d, q := order.q,
                         trend := trend }
              aicc := (aicc : WithTop ℚ) }
      else
        .ok st
    else
      .ok st

/-- One full call `self._fit(order, trend)` (lines 128-140): the fitting
collaborator is consulted first (`sm.tsa.ARIMA(...).fit(...)`, lines
128-129); its failure is the `ValueError` that the loops in `find` catch. -/
def fitAttempt (fit : Order3 → Trend → FitResult) (st : HKState)
    (order : Order3) (trend : Trend) : Except PyError HKState :=
  match fit order trend with
  | .failure => .error .valueError
  | .success fm => _fit st order trend fm

/-- The loop body `try: self._fit(order, trend) except ValueError: continue`
used in the seed phase (lines 169-173): only `ValueError` is caught. -/
def tryFit (fit : Order3 → Trend → FitResult) (st : HKState)
    (order : Order3) (trend : Trend) : Except PyError HKState :=
  match fitAttempt fit st order trend with
  | .error .valueError => .ok st
  | r => r

/-- The seed-phase loop (lines 169-173). -/
def runSeed (fit : Order3 → Trend → FitResult) :
    HKState → List (Order3 × Trend) → Except PyError HKState
  | st, [] => .ok st
  | st, (o, t) :: rest =>
    match tryFit fit st o t with
    | .error e => .error e
    | .ok st' => runSeed fit st' rest

/-- The seed candidate list (lines 152-167), as a function of `d`. -/
def seedOrders (d : Int) : List (Order3 × Trend) :=
  if d ≤ 1 then
    [(⟨0, d, 0⟩, Trend.c), (⟨0, d, 0⟩, Trend.nc), (⟨1, d, 0⟩, Trend.c),
     (⟨0, d, 1⟩, Trend.c), (⟨2, d, 2⟩, Trend.c)]
  else
    [(⟨0, d, 0⟩, Trend.nc), (⟨1, d, 0⟩, Trend.nc), (⟨0, d, 1⟩, Trend.nc),
     (⟨2, d, 2⟩, Trend.nc)]

/-- Lines 176-177: `[p for p in np.arange(best_p - 1, best_p + 2)
if not p < 0 or not p > self.conditions[0]]` — note the source's `or`. -/
def pCandidates (best_p : Int) (maxOrder : Int) : List Int :=
  ([best_p - 1, best_p, best_p + 1]).filter fun p =>
    !(decide (p < 0)) || !(decide (p > maxOrder))

/-- Lines 180-181, identical in shape to `pCandidates`. -/
def qCandidates (best_q : Int) (maxOrder : Int) : List Int :=
  ([best_q - 1, best_q, best_q + 1]).filter fun q =>
    !(decide (q < 0)) || !(decide (q > maxOrder))

/-- `np.arange(self.conditions[0] + 1)` (lines 148-149). -/
def fullRange (maxOrder : Int) : List Int :=
  (List.range (maxOrder + 1).toNat).map fun i => (i : Int)

/-- The iteration order of the triple loop at lines 183-185:
`for p in p_candidates: for q in q_candidates: for trend in ("c", "nc")`. -/
def gridCandidates (ps qs : List Int) : List (Int × Int × Trend) :=
  ps.flatMap fun p => qs.flatMap fun q => [(p, q, Trend.c), (p, q, Trend.nc)]

/-- The body of the triple loop (lines 186-194): skip if `(order, trend)`
is already in `orders`; otherwise try `_fit`, appending to `orders` on
success; `ValueError` is caught and the candidate skipped; any other
exception propagates. The pair threads `(state, orders)`. -/
def gridStep (fit : Order3 → Trend → FitResult) (d : Int)
    (stv : HKState × List (Order3 × Trend)) (p q : Int) (trend : Trend) :
    Except PyError (HKState × List (Order3 × Trend)) :=
  if ((⟨p, d, q⟩ : Order3), trend) ∈ stv.2 then
    .ok stv
  else
    match fitAttempt fit stv.1 ⟨p, d, q⟩ trend with
    | .error .valueError => .ok stv
    | .error e => .error e
    | .ok st' => .ok (st', stv.2 ++ [((⟨p, d, q⟩ : Order3), trend)])

/-- The triple loop of lines 183-194 over a flattened candidate list. -/
def runGrid (fit : Order3 → Trend → FitResult) (d : Int) :
    HKState × List (Order3 × Trend) → List (Int × Int × Trend) →
      Except PyError (HKState × List (Order3 × Trend))
  | stv, [] => .ok stv
  | stv, (p, q, t) :: rest =>
    match gridStep fit d stv p q t with
    | .error e => .error e
    | .ok stv' => runGrid fit d stv' rest

/-- `find` (lines 142-194): run the differencing phase, read
`d = self.order["d"]`, then either the exhaustive grid (`full_search`)
with an empty visited list, or the seed phase followed by the
neighborhood grid with the seed list as the visited list. Returns the
final state together with the final `orders` list. -/
def find (tests : Nat → ℚ × ℚ) (fit : Order3 → Trend → FitResult)
    (st : HKState) : Except PyError (HKState × List (Order3 × Trend)) :=
  match _get_differencing_degree tests st with
  | .error e => .error e
  | .ok st1 =>
    let d := st1.order.d
    if st1.fullSearch then
      runGrid fit d (st1, [])
        (gridCandidates (fullRange st1.maxOrder) (fullRange st1.maxOrder))
    else
      match runSeed fit st1 (seedOrders d) with
      | .error e => .error e
      | .ok st2 =>
        runGrid fit d (st2, seedOrders d)
          (gridCandidates (pCandidates st2.order.p st2.maxOrder)
            (qCandidates st2.order.q st2.maxOrder))

/-- One successful collaborator outcome handed to `_fit`: the candidate's
order, trend and fitted model. A run of the Candidate Evaluator is a list
of these. -/
structure EvalEvent where
  order : Order3
  trend : Trend
  fm : FittedModel
deriving DecidableEq, Repr

/-- A sequence of `_fit` evaluations threaded through the state, as the
loops of `find` perform them for candidates whose fit succeeded. -/
def runEvents : HKState → List EvalEvent → Except PyError HKState
  | st, [] => .ok st
  | st, e :: rest =>
    match _fit st e.order e.trend e.fm with
    | .error err => .error err
    | .ok st' => runEvents st' rest

/-- Property vocabulary (from the spec's invariant): the corrected AICc
values of the events whose fitted model passes both root checks. -/
def passingAiccs (tsLen : Nat) (c : ℚ) (events : List EvalEvent) : List ℚ :=
  (events.filter fun e => rootsOk c e.fm).map fun e =>
    aiccVal tsLen e.order e.trend e.fm.aic

/-- Property vocabulary: the minimum of a list of rationals in
`WithTop ℚ`, `⊤` for the empty list. -/
def minWithTop (l : List ℚ) : WithTop ℚ :=
  l.foldr (fun a acc => min ((a : ℚ) : WithTop ℚ) acc) ⊤

/-- The state `_fit` stores on acceptance (lines 135-140). -/
def acceptState (st : HKState) (order : Order3) (trend : Trend)
    (fm : FittedModel) : HKState :=
  { st with
    model := some fm
    order := { p := order.p, d := order.d, q := order.q, trend := trend }
    aicc := ((aiccVal st.ts.length order trend fm.aic : ℚ) : WithTop ℚ) }

lemma _correct_aic_ok {st : HKState} {o : Order3} {t : Trend} {aic : ℚ}
    (hd : denomOf st.ts.length o t ≠ 0) :
    _correct_aic st o t aic = .ok (aiccVal st.ts.length o t aic) := by
  unfold _correct_aic
  rw [if_neg hd]

lemma _fit_eq_of_denom {st : HKState} {o : Order3} {t : Trend}
    {fm : FittedModel} (hd : denomOf st.ts.length o t ≠ 0) :
    _fit st o t fm =
      if ((aiccVal st.ts.length o t fm.aic : ℚ) : WithTop ℚ) < st.aicc ∧
          rootsOk st.minRootModulus fm = true then
        .ok (acceptState st o t fm)
      else
        .ok st := by
  unfold _fit
  rw [_correct_aic_ok hd]
  by_cases h1 : ((aiccVal st.ts.length o t fm.aic : ℚ) : WithTop ℚ) < st.aicc
  · by_cases h2 : rootsOk st.minRootModulus fm = true
    · simp [h1, h2, acceptState]
    · simp [h1, h2]
  · simp [h1]

lemma _fit_ok_denom {st : HKState} {o : Order3} {t : Trend}
    {fm : FittedModel} {st' : HKState} (h : _fit st o t fm = .ok st') :
    denomOf st.ts.length o t ≠ 0 := by
  intro hd
  unfold _fit _correct_aic at h
  rw [if_pos hd] at h
  simp at h

lemma _fit_ok_cases {st : HKState} {o : Order3} {t : Trend}
    {fm : FittedModel} {st' : HKState} (h : _fit st o t fm = .ok st') :
    (((aiccVal st.ts.length o t fm.aic : ℚ) : WithTop ℚ) < st.aicc ∧
        rootsOk st.minRootModulus fm = true ∧ st' = acceptState st o t fm) ∨
      (st' = st ∧
        ¬(((aiccVal st.ts.length o t fm.aic : ℚ) : WithTop ℚ) < st.aicc ∧
          rootsOk st.minRootModulus fm = true)) := by
  rw [_fit_eq_of_denom (_fit_ok_denom h)] at h
  by_cases hc : ((aiccVal st.ts.length o t fm.aic : ℚ) : WithTop ℚ) < st.aicc ∧
      rootsOk st.minRootModulus fm = true
  · rw [if_pos hc] at h
    exact .inl ⟨hc.1, hc.2, (Except.ok.inj h).symm⟩
  · rw [if_neg hc] at h
    exact .inr ⟨(Except.ok.inj h).symm, hc⟩

lemma foldr_min_le_base (l : List ℚ) (b : WithTop ℚ) :
    l.foldr (fun a acc => min ((a : ℚ) : WithTop ℚ) acc) b ≤ b := by
  induction l with
  | nil => exact le_refl b
  | cons x xs ih => exact le_trans (min_le_right _ _) ih

lemma foldr_min_base (l : List ℚ) (a b : WithTop ℚ) :
    l.foldr (fun x acc => min ((x : ℚ) : WithTop ℚ) acc) (min a b) =
      min a (l.foldr (fun x acc => min ((x : ℚ) : WithTop ℚ) acc) b) := by
  induction l with
  | nil => rfl
  | cons x xs ih =>
    simp only [List.foldr_cons, ih]
    exact min_left_comm _ _ _

lemma passingAiccs_cons (tsLen : Nat) (c : ℚ) (e : EvalEvent)
    (rest : List EvalEvent) :
    passingAiccs tsLen c (e :: rest) =
      if rootsOk c e.fm = true then
        aiccVal tsLen e.order e.trend e.fm.aic :: passingAiccs tsLen c rest
      else
        passingAiccs tsLen c rest := by
  by_cases hr : rootsOk c e.fm = true
  · simp [passingAiccs, List.filter_cons, hr]
  · simp [passingAiccs, List.filter_cons, hr]

/-- The induction workhorse: a run of successful-fit evaluations preserves
the configuration fields, its final incumbent AICc is the minimum of the
root-check-passing candidates' corrected AICc values and the starting
AICc, it leaves the state untouched when no candidate passes the root
check, and any stored model passed the root check (unless it was already
stored at the start). -/
lemma runEvents_spec :
    ∀ (events : List EvalEvent) (st st' : HKState),
      runEvents st events = .ok st' →
      st'.ts = st.ts ∧ st'.minRootModulus = st.minRootModulus ∧
      st'.aicc =
        (passingAiccs st.ts.length st.minRootModulus events).foldr
          (fun a acc => min ((a : ℚ) : WithTop ℚ) acc) st.aicc ∧
      (passingAiccs st.ts.length st.minRootModulus events = [] → st' = st) ∧
      (∀ fm, st'.model = some fm →
        st.model = some fm ∨ rootsOk st.minRootModulus fm = true) := by
  intro events
  induction events with
  | nil =>
    intro st st' h
    have hst : st' = st := (Except.ok.inj h).symm
    subst hst
    exact ⟨rfl, rfl, rfl, fun _ => rfl, fun fm hfm => .inl hfm⟩
  | cons e rest ih =>
    intro st st' h
    unfold runEvents at h
    cases hfit : _fit st e.order e.trend e.fm with
    | error err => rw [hfit] at h; simp at h
    | ok st1 =>
      rw [hfit] at h
      obtain ⟨hts, hc, haicc, hemp, hmodel⟩ := ih st1 st' h
      rcases _fit_ok_cases hfit with ⟨hlt, hroots, hupd⟩ | ⟨hkeep, hno⟩
      · -- the candidate is accepted
        have h1ts : st1.ts = st.ts := by rw [hupd]; rfl
        have h1c : st1.minRootModulus = st.minRootModulus := by rw [hupd]; rfl
        have h1aicc : st1.aicc =
            ((aiccVal st.ts.length e.order e.trend e.fm.aic : ℚ) : WithTop ℚ) := by
          rw [hupd]; rfl
        have h1model : st1.model = some e.fm := by rw [hupd]; rfl
        refine ⟨hts.trans h1ts, hc.trans h1c, ?_, ?_, ?_⟩
        · rw [passingAiccs_cons, if_pos hroots, List.foldr_cons,
            ← foldr_min_base, min_eq_left hlt.le]
          rw [h1ts, h1c, h1aicc] at haicc
          exact haicc
        · intro habs
          rw [passingAiccs_cons, if_pos hroots] at habs
          exact absurd habs (List.cons_ne_nil _ _)
        · intro fm hfm
          rcases hmodel fm hfm with h' | h'
          · rw [h1model] at h'
            have he : fm = e.fm := (Option.some.inj h').symm
            subst he
            exact .inr hroots
          · rw [h1c] at h'
            exact .inr h'
      · -- the candidate is rejected or does not improve the incumbent
        subst hkeep
        refine ⟨hts, hc, ?_, ?_, hmodel⟩
        · rw [passingAiccs_cons]
          by_cases hr : rootsOk st1.minRootModulus e.fm = true
          · rw [if_pos hr, List.foldr_cons]
            have hle : st1.aicc ≤
                ((aiccVal st1.ts.length e.order e.trend e.fm.aic : ℚ) :
                  WithTop ℚ) :=
              le_of_not_lt fun hlt => hno ⟨hlt, hr⟩
            rw [min_eq_right (le_trans (foldr_min_le_base _ _) hle)]
            exact haicc
          · rw [if_neg hr]
            exact haicc
        · intro habs
          rw [passingAiccs_cons] at habs
          by_cases hr : rootsOk st1.minRootModulus e.fm = true
          · rw [if_pos hr] at habs
            exact absurd habs (List.cons_ne_nil _ _)
          · rw [if_neg hr] at habs
            exact hemp habs

lemma gdd_ok_fields {tests : Nat → ℚ × ℚ} {st st' : HKState}
    (h : _get_differencing_degree tests st = .ok st') :
    st'.order = st.order ∧ st'.fullSearch = st.fullSearch ∧
      st'.maxOrder = st.maxOrder := by
  unfold _get_differencing_degree at h
  cases hm : _testFuel tests st.alpha 1000 0 st.dAttr st.pValues with
  | error e => rw [hm] at h; simp at h
  | ok pr =>
    rw [hm] at h
    obtain ⟨d, pv⟩ := pr
    have h2 : st' = { st with dAttr := d, pValues := pv } :=
      (Except.ok.inj h).symm
    subst h2
    exact ⟨rfl, rfl, rfl⟩

lemma _fit_ok_orderD {st : HKState} {o : Order3} {t : Trend}
    {fm : FittedModel} {st' : HKState} (h : _fit st o t fm = .ok st') :
    st'.order.d = st.order.d ∨ st'.order.d = o.d := by
  rcases _fit_ok_cases h with ⟨_, _, rfl⟩ | ⟨rfl, _⟩
  · exact .inr rfl
  · exact .inl rfl

lemma fitAttempt_ok_orderD {fit : Order3 → Trend → FitResult} {st : HKState}
    {o : Order3} {t : Trend} {st' : HKState}
    (h : fitAttempt fit st o t = .ok st') :
    st'.order.d = st.order.d ∨ st'.order.d = o.d := by
  unfold fitAttempt at h
  cases hf : fit o t with
  | failure => rw [hf] at h; simp at h
  | success fm => rw [hf] at h; exact _fit_ok_orderD h

lemma tryFit_ok_orderD {fit : Order3 → Trend → FitResult} {st : HKState}
    {o : Order3} {t : Trend} {st' : HKState}
    (h : tryFit fit st o t = .ok st') :
    st'.order.d = st.order.d ∨ st'.order.d = o.d := by
  unfold tryFit at h
  cases ha : fitAttempt fit st o t with
  | error e =>
    rw [ha] at h
    cases e with
    | valueError =>
      have h2 : st' = st := (Except.ok.inj h).symm
      subst h2
      exact .inl rfl
    | attributeError => simp at h
    | zeroDivisionError => simp at h
    | recursionError => simp at h
  | ok s =>
    rw [ha] at h
    have h2 : st' = s := (Except.ok.inj h).symm
    subst h2
    exact fitAttempt_ok_orderD ha

lemma seedOrders_d (d : Int) : ∀ c ∈ seedOrders d, c.1.d = d := by
  intro c hc
  unfold seedOrders at hc
  by_cases hd : d ≤ 1
  · rw [if_pos hd] at hc
    simp only [List.mem_cons, List.not_mem_nil, or_false] at hc
    rcases hc with rfl | rfl | rfl | rfl | rfl <;> rfl
  · rw [if_neg hd] at hc
    simp only [List.mem_cons, List.not_mem_nil, or_false] at hc
    rcases hc with rfl | rfl | rfl | rfl <;> rfl

lemma runSeed_ok_orderD {fit : Order3 → Trend → FitResult} (d0 : Int) :
    ∀ (l : List (Order3 × Trend)) (st st' : HKState),
      (∀ c ∈ l, c.1.d = d0) → st.order.d = d0 →
      runSeed fit st l = .ok st' → st'.order.d = d0 := by
  intro l
  induction l with
  | nil =>
    intro st st' _ hst h
    rw [← (Except.ok.inj h)]
    exact hst
  | cons c rest ih =>
    intro st st' hl hst h
    obtain ⟨o, t⟩ := c
    unfold runSeed at h
    cases ht : tryFit fit st o t with
    | error e => rw [ht] at h; simp at h
    | ok st1 =>
      rw [ht] at h
      have h1 : st1.order.d = d0 := by
        rcases tryFit_ok_orderD ht with h' | h'
        · rw [h', hst]
        · rw [h']
          exact hl (o, t) (List.mem_cons_self _ _)
      exact ih st1 st' (fun c hc => hl c (List.mem_cons_of_mem _ hc)) h1 h

lemma gridStep_ok_orderD {fit : Order3 → Trend → FitResult} {d : Int}
    {stv stv' : HKState × List (Order3 × Trend)} {p q : Int} {t : Trend}
    (h : gridStep fit d stv p q t = .ok stv') (hst : stv.1.order.d = d) :
    stv'.1.order.d = d := by
  unfold gridStep at h
  by_cases hm : (((⟨p, d, q⟩ : Order3), t) ∈ stv.2)
  · rw [if_pos hm] at h
    rw [← (Except.ok.inj h)]
    exact hst
  · rw [if_neg hm] at h
    cases ha : fitAttempt fit stv.1 ⟨p, d, q⟩ t with
    | error e =>
      rw [ha] at h
      cases e with
      | valueError =>
        rw [← (Except.ok.inj h)]
        exact hst
      | attributeError => simp at h
      | zeroDivisionError => simp at h
      | recursionError => simp at h
    | ok s =>
      rw [ha] at h
      have h2 : stv' = (s, stv.2 ++ [((⟨p, d, q⟩ : Order3), t)]) :=
        (Except.ok.inj h).symm
      subst h2
      rcases fitAttempt_ok_orderD ha with h' | h'
      · exact h'.trans hst
      · exact h'

lemma runGrid_ok_orderD {fit : Order3 → Trend → FitResult} {d : Int} :
    ∀ (cands : List (Int × Int × Trend))
      (stv stv' : HKState × List (Order3 × Trend)),
      runGrid fit d stv cands = .ok stv' → stv.1.order.d = d →
      stv'.1.order.d = d := by
  intro cands
  induction cands with
  | nil =>
    intro stv stv' h hst
    rw [← (Except.ok.inj h)]
    exact hst
  | cons c rest ih =>
    intro stv stv' h hst
    obtain ⟨p, q, t⟩ := c
    unfold runGrid at h
    cases hg : gridStep fit d stv p q t with
    | error e => rw [hg] at h; simp at h
    | ok stv1 =>
      rw [hg] at h
      exact ih stv1 stv' h (gridStep_ok_orderD hg hst)

lemma one_le_mOf {o : Order3} (t : Trend) (hp : 0 ≤ o.p) (hq : 0 ≤ o.q) :
    1 ≤ mOf o t := by
  unfold mOf kOf
  by_cases ht : t = Trend.c
  · rw [if_pos ht]; omega
  · rw [if_neg ht]; omega

lemma correction_num_pos {m : Int} (hm : 1 ≤ m) : 0 < 2 * m * (m + 1) :=
  mul_pos (by omega) (by omega)

lemma _testFuel_cont_none {tests : Nat → ℚ × ℚ} {alpha : ℚ}
    (fuel level : Nat) (pvals : List (Int × ℚ × ℚ))
    (hcont : (tests level).2 < alpha ∨ alpha ≤ (tests level).1) :
    _testFuel tests alpha (fuel + 1) level none pvals =
      .error .attributeError := by
  unfold _testFuel
  rw [if_pos hcont]

/-- C1: the spec claims the stepwise neighborhood candidate sets are
`{best−1, best, best+1} ∩ [0, max_order]`, out-of-range values excluded.
The source filter `not p < 0 or not p > self.conditions[0]` is a
disjunction that every integer satisfies whenever `max_order ≥ 0`, so no
neighbor is ever excluded: with the default `max_order = 5`, an incumbent
`p = 0` yields candidate `-1 < 0`, and an incumbent `p = 5` yields
candidate `6 > max_order`; likewise for `q`. This contradicts both the
claim and the class docstring ("the upper bound (inclusive) for each of
p and q"). -/
theorem c1_neighborhood_filter_vacuous :
    pCandidates 0 5 = [-1, 0, 1] ∧
    ((-1 : Int) ∈ pCandidates 0 5 ∧ ¬(0 ≤ (-1 : Int))) ∧
    pCandidates 5 5 = [4, 5, 6] ∧
    ((6 : Int) ∈ pCandidates 5 5 ∧ ¬((6 : Int) ≤ 5)) ∧
    qCandidates 0 5 = [-1, 0, 1] ∧ qCandidates 5 5 = [4, 5, 6] := by
  decide

/-- C7: the spec claims the differencing estimator increments `d`,
differences and recurses whenever `p_kpss < alpha` or `p_adf ≥ alpha`,
hard-stopping at `d = 2`. On any series whose level-0 tests trigger that
continuation rule (here `p_adf = 1/2 ≥ alpha = 1/20` and
`p_kpss = 1/100 < alpha`), the source instead raises `AttributeError` at
`if self.d == 2`, because `__init__` never creates the attribute `d`. -/
theorem c7_differencing_raises_attribute_error :
    _get_differencing_degree (fun _ => (1/2, 1/100))
      (initState [1, 2, 3] (1/20) (5, 1001/1000) false) =
      .error .attributeError := by
  decide

/-- C4 counterexample: constructing with an empty series and the
inconsistent configuration `max_order = -1` succeeds — `__init__`
performs no validation, so nothing is "fatal at construction time". -/
theorem c4_counterexample_empty_series_accepted :
    init ([] : List ℚ) (1/20) (-1, 1001/1000) false =
      .ok (initState [] (1/20) (-1, 1001/1000) false) ∧
    (initState ([] : List ℚ) (1/20) (-1, 1001/1000) false).ts = [] ∧
    (initState ([] : List ℚ) (1/20) (-1, 1001/1000) false).maxOrder = -1 := by
  decide

/-- C4 amended: construction never fails; `__init__` only stores its
arguments (empty series and `max_order < 0` included) and initializes the
sentinel incumbent; any failure can only surface later, inside `find`. -/
theorem c4_amended_init_always_succeeds (ts : List ℚ) (alpha : ℚ)
    (conditions : Int × ℚ) (fullSearch : Bool) :
    init ts alpha conditions fullSearch =
      .ok (initState ts alpha conditions fullSearch) ∧
    (initState ts alpha conditions fullSearch).ts = ts ∧
    (initState ts alpha conditions fullSearch).maxOrder = conditions.1 ∧
    (initState ts alpha conditions fullSearch).model = none ∧
    (initState ts alpha conditions fullSearch).aicc = ⊤ :=
  ⟨rfl, rfl, rfl, rfl, rfl⟩

/-- C3 counterexample: on a length-1 series the candidate `(0,0,0)` with
trend `"nc"` has `n - m - 1 = -1 < 0`; `_correct_aic` returns the finite
value `-4` (neither a failure nor `+∞`) and the candidate becomes the
incumbent. On a length-2 series the same candidate has `n - m - 1 = 0`
and the seed loop propagates `ZeroDivisionError` (only `ValueError` is
caught), so the run crashes. -/
theorem c3_counterexample_degenerate_denominator :
    denomOf (initState [0] (1/20) (5, 1001/1000) false).ts.length
        ⟨0, 0, 0⟩ Trend.nc = -1 ∧
    _fit (initState [0] (1/20) (5, 1001/1000) false) ⟨0, 0, 0⟩ Trend.nc
        ⟨0, [], []⟩ =
      .ok { initState [0] (1/20) (5, 1001/1000) false with
            model := some ⟨0, [], []⟩, order := ⟨0, 0, 0, Trend.nc⟩,
            aicc := ((-4 : ℚ) : WithTop ℚ) } ∧
    runSeed (fun _ _ => .success ⟨0, [], []⟩)
        (initState [0, 0] (1/20) (5, 1001/1000) false)
        [(⟨0, 0, 0⟩, Trend.nc)] = .error .zeroDivisionError := by
  decide

/-- C3 amended: when `n - m - 1 = 0` the corrector raises
`ZeroDivisionError`, and a candidate whose fit succeeded then crashes the
run (`find` catches only `ValueError`); when `n - m - 1 < 0` the
corrector returns `raw_aic + 2m(m+1)/(n-m-1)`, a finite value strictly
below `raw_aic` — it is treated like any other AICc and can become the
incumbent. -/
theorem c3_amended_degenerate_correction (st : HKState) (o : Order3)
    (t : Trend) (aic : ℚ) (hp : 0 ≤ o.p) (hq : 0 ≤ o.q) :
    (denomOf st.ts.length o t = 0 →
      _correct_aic st o t aic = .error .zeroDivisionError ∧
      ∀ (fit : Order3 → Trend → FitResult) (fm : FittedModel),
        fit o t = .success fm →
        tryFit fit st o t = .error .zeroDivisionError) ∧
    (denomOf st.ts.length o t < 0 →
      _correct_aic st o t aic = .ok (aiccVal st.ts.length o t aic) ∧
      aiccVal st.ts.length o t aic < aic) := by
  constructor
  · intro hd
    have hca : _correct_aic st o t aic = .error .zeroDivisionError := by
      unfold _correct_aic
      rw [if_pos hd]
    refine ⟨hca, ?_⟩
    intro fit fm hf
    have hfit : _fit st o t fm = .error .zeroDivisionError := by
      unfold _fit
      have hca' : _correct_aic st o t fm.aic = .error .zeroDivisionError := by
        unfold _correct_aic
        rw [if_pos hd]
      rw [hca']
    have hfa : fitAttempt fit st o t = .error .zeroDivisionError := by
      unfold fitAttempt
      rw [hf]
      exact hfit
    unfold tryFit
    rw [hfa]
  · intro hd
    have hd0 : denomOf st.ts.length o t ≠ 0 := ne_of_lt hd
    refine ⟨_correct_aic_ok hd0, ?_⟩
    unfold aiccVal
    have hnum : (0 : ℚ) <
        ((2 * mOf o t * (mOf o t + 1) : Int) : ℚ) := by
      exact_mod_cast correction_num_pos (one_le_mOf t hp hq)
    have hden : ((denomOf st.ts.length o t : Int) : ℚ) < 0 := by
      exact_mod_cast hd
    have hneg := div_neg_of_pos_of_neg hnum hden
    linarith

/-- C8: the AICc corrector returns
`raw_aic + 2*m*(m+1) / (n - m - 1)` with `m = p + q + k + 1`,
`k = 1` iff the trend is constant (whenever the division is defined),
and the returned value is at least `raw_aic` whenever `n - m - 1 > 0`. -/
theorem c8_aicc_formula_and_nonneg_correction (st : HKState) (o : Order3)
    (t : Trend) (aic : ℚ) (hp : 0 ≤ o.p) (hq : 0 ≤ o.q) :
    (denomOf st.ts.length o t ≠ 0 →
      _correct_aic st o t aic =
        .ok (aic + ((2 * mOf o t * (mOf o t + 1) : Int) : ℚ) /
          ((denomOf st.ts.length o t : Int) : ℚ))) ∧
    (0 < denomOf st.ts.length o t →
      ∀ v, _correct_aic st o t aic = .ok v → aic ≤ v) := by
  constructor
  · intro hd
    exact _correct_aic_ok hd
  · intro hd v hv
    rw [_correct_aic_ok (by omega : denomOf st.ts.length o t ≠ 0)] at hv
    have hv2 : v = aiccVal st.ts.length o t aic := (Except.ok.inj hv).symm
    subst hv2
    unfold aiccVal
    have hnum : (0 : ℚ) ≤
        ((2 * mOf o t * (mOf o t + 1) : Int) : ℚ) := by
      exact_mod_cast le_of_lt (correction_num_pos (one_le_mOf t hp hq))
    have hden : (0 : ℚ) ≤ ((denomOf st.ts.length o t : Int) : ℚ) := by
      exact_mod_cast le_of_lt hd
    have := div_nonneg hnum hden
    linarith

/-- C2: whenever the combined decision rule requires differencing at
degree 0 (`p_kpss < alpha` or `p_adf ≥ alpha` on the original series),
`find` raises `AttributeError` — `_get_differencing_degree` reads
`self.d`, which `__init__` never initializes. Consequently every run of
`find` that completes without error uses differencing degree 0: `find`
reads `d` from `self.order["d"]`, which the differencing phase never
writes, so it stays at its initial value 0. -/
theorem c2_missing_self_d (ts : List ℚ) (alpha : ℚ)
    (conditions : Int × ℚ) (fullSearch : Bool) (tests : Nat → ℚ × ℚ)
    (fit : Order3 → Trend → FitResult) :
    ((tests 0).2 < alpha ∨ alpha ≤ (tests 0).1 →
      find tests fit (initState ts alpha conditions fullSearch) =
        .error .attributeError) ∧
    (∀ res, find tests fit (initState ts alpha conditions fullSearch) =
        .ok res →
      res.1.order.d = 0) := by
  constructor
  · intro hcont
    have h1 : _testFuel tests (initState ts alpha conditions fullSearch).alpha
        1000 0 (initState ts alpha conditions fullSearch).dAttr
        (initState ts alpha conditions fullSearch).pValues =
        .error .attributeError := by
      show _testFuel tests alpha (999 + 1) 0 none [] = .error .attributeError
      exact _testFuel_cont_none 999 0 [] hcont
    have h2 : _get_differencing_degree tests
        (initState ts alpha conditions fullSearch) =
        .error .attributeError := by
      unfold _get_differencing_degree
      rw [h1]
    unfold find
    rw [h2]
  · intro res hres
    unfold find at hres
    cases hg : _get_differencing_degree tests
        (initState ts alpha conditions fullSearch) with
    | error e =>
      rw [hg] at hres
      simp at hres
    | ok st1 =>
      rw [hg] at hres
      dsimp only at hres
      obtain ⟨hord, _, _⟩ := gdd_ok_fields hg
      have hd1 : st1.order.d = 0 := by rw [hord]; rfl
      by_cases hfs : st1.fullSearch = true
      · rw [if_pos hfs] at hres
        exact (runGrid_ok_orderD _ _ _ hres rfl).trans hd1
      · rw [if_neg hfs] at hres
        cases hs : runSeed fit st1 (seedOrders st1.order.d) with
        | error e =>
          rw [hs] at hres
          simp at hres
        | ok st2 =>
          rw [hs] at hres
          have hd2 : st2.order.d = st1.order.d :=
            runSeed_ok_orderD st1.order.d (seedOrders st1.order.d) st1 st2
              (seedOrders_d _) rfl hs
          exact (runGrid_ok_orderD _ _ _ hres hd2).trans hd1

/-- C5: after any sequence of successful-fit evaluations from the freshly
constructed state, the incumbent's AICc equals the minimum corrected AICc
over all evaluated candidates that satisfied the stability/invertibility
(root-modulus) check; as long as no evaluated candidate satisfied it, the
incumbent is still the sentinel no-model state with AICc `= +∞`. -/
theorem c5_incumbent_aicc_is_min (ts : List ℚ) (alpha : ℚ)
    (conditions : Int × ℚ) (fullSearch : Bool) (events : List EvalEvent)
    (st' : HKState)
    (h : runEvents (initState ts alpha conditions fullSearch) events =
      .ok st') :
    st'.aicc = minWithTop (passingAiccs ts.length conditions.2 events) ∧
    (passingAiccs ts.length conditions.2 events = [] →
      st'.model = none ∧ st'.aicc = ⊤) := by
  obtain ⟨_, _, haicc, hemp, _⟩ :=
    runEvents_spec events (initState ts alpha conditions fullSearch) st' h
  constructor
  · exact haicc
  · intro he
    have hst : st' = initState ts alpha conditions fullSearch := hemp he
    rw [hst]
    exact ⟨rfl, rfl⟩

/-- C6: any model stored by a run from the fresh state has all AR and all
MA characteristic-root moduli strictly above `conditions.2`
(`min_root_modulus`); a single evaluation changes the state only if the
candidate's corrected AICc is strictly below the incumbent's and the root
check passes; and a candidate failing the root check never changes the
state, regardless of its AICc. -/
theorem c6_accepted_roots_exceed_bound (ts : List ℚ) (alpha : ℚ)
    (conditions : Int × ℚ) (fullSearch : Bool) (events : List EvalEvent)
    (st' : HKState)
    (h : runEvents (initState ts alpha conditions fullSearch) events =
      .ok st') :
    (∀ fm, st'.model = some fm →
      (∀ r ∈ fm.arRootModuli, conditions.2 < r) ∧
      (∀ r ∈ fm.maRootModuli, conditions.2 < r)) ∧
    (∀ (st2 : HKState) (o : Order3) (t : Trend) (fm : FittedModel)
        (st3 : HKState), _fit st2 o t fm = .ok st3 → st3 ≠ st2 →
      ((aiccVal st2.ts.length o t fm.aic : ℚ) : WithTop ℚ) < st2.aicc ∧
        rootsOk st2.minRootModulus fm = true) ∧
    (∀ (st2 : HKState) (o : Order3) (t : Trend) (fm : FittedModel)
        (st3 : HKState), rootsOk st2.minRootModulus fm = false →
      _fit st2 o t fm = .ok st3 → st3 = st2) := by
  refine ⟨?_, ?_, ?_⟩
  · intro fm hfm
    obtain ⟨_, _, _, _, hmodel⟩ :=
      runEvents_spec events (initState ts alpha conditions fullSearch) st' h
    rcases hmodel fm hfm with h' | h'
    · exact absurd h' (by simp [initState])
    · have h'' : rootsOk conditions.2 fm = true := h'
      unfold rootsOk at h''
      simp only [Bool.and_eq_true, List.all_eq_true, decide_eq_true_eq] at h''
      exact h''
  · intro st2 o t fm st3 h3 hne
    rcases _fit_ok_cases h3 with ⟨hlt, hroots, _⟩ | ⟨rfl, _⟩
    · exact ⟨hlt, hroots⟩
    · exact absurd rfl hne
  · intro st2 o t fm st3 hbad h3
    rcases _fit_ok_cases h3 with ⟨_, hroots, _⟩ | ⟨rfl, _⟩
    · rw [hbad] at hroots
      exact absurd hroots (by simp)
    · rfl

/-- C9: a candidate whose fit the collaborator signals as a failure
(`ValueError`) is recovered locally in both phases: the state (incumbent
order, trend, AICc, model) is unchanged, the loops continue with the next
candidate, and no error propagates. -/
theorem c9_fit_failure_recovered (fit : Order3 → Trend → FitResult)
    (st : HKState) (p d q : Int) (t : Trend)
    (h : fit ⟨p, d, q⟩ t = .failure) :
    tryFit fit st ⟨p, d, q⟩ t = .ok st ∧
    (∀ v, gridStep fit d (st, v) p q t = .ok (st, v)) ∧
    (∀ rest, runSeed fit st ((⟨p, d, q⟩, t) :: rest) =
      runSeed fit st rest) ∧
    (∀ v rest, runGrid fit d (st, v) ((p, q, t) :: rest) =
      runGrid fit d (st, v) rest) := by
  have hfa : fitAttempt fit st ⟨p, d, q⟩ t = .error .valueError := by
    unfold fitAttempt
    rw [h]
  have h1 : tryFit fit st ⟨p, d, q⟩ t = .ok st := by
    unfold tryFit
    rw [hfa]
  have h2 : ∀ v, gridStep fit d (st, v) p q t = .ok (st, v) := by
    intro v
    unfold gridStep
    by_cases hm : (((⟨p, d, q⟩ : Order3), t) ∈ v)
    · rw [if_pos hm]
    · rw [if_neg hm, hfa]
  refine ⟨h1, h2, ?_, ?_⟩
  · intro rest
    simp only [runSeed, h1]
  · intro v rest
    simp only [runGrid, h2 v]

/-- C10: within one run the incumbent AICc never increases as successive
candidates are evaluated, and ties never replace the incumbent: a
candidate whose corrected AICc equals the incumbent's leaves the state
unchanged (the acceptance comparison is a strict `<`). -/
theorem c10_aicc_monotone_and_strict_ties (st : HKState)
    (events : List EvalEvent) (st' : HKState)
    (h : runEvents st events = .ok st') :
    st'.aicc ≤ st.aicc ∧
    (∀ (st2 : HKState) (o : Order3) (t : Trend) (fm : FittedModel)
        (st3 : HKState), _fit st2 o t fm = .ok st3 →
      ((aiccVal st2.ts.length o t fm.aic : ℚ) : WithTop ℚ) = st2.aicc →
      st3 = st2) := by
  constructor
  · obtain ⟨_, _, haicc, _, _⟩ := runEvents_spec events st st' h
    rw [haicc]
    exact foldr_min_le_base _ _
  · intro st2 o t fm st3 h3 heq
    rcases _fit_ok_cases h3 with ⟨hlt, _, _⟩ | ⟨rfl, _⟩
    · rw [heq] at hlt
      exact absurd hlt (lt_irrefl _)
    · rfl

/-- Witness for C2: with level-0 p-values `(1/2, 1/100)` the continuation
rule fires and `find` raises `AttributeError`; with p-values `(1/100, 1/2)`
it does not fire, the all-failure run completes, and the returned state
has differencing degree 0. -/
theorem c2_witness :
    find (fun _ => (1/2, 1/100)) (fun _ _ => FitResult.failure)
      (initState [1] (1/20) (5, 1001/1000) false) =
      .error .attributeError ∧
    ((initState ([1] : List ℚ) (1/20) (5, 1001/1000) false,
        seedOrders 0) : HKState × List (Order3 × Trend)).1.order.d = 0 :=
  ⟨(c2_missing_self_d [1] (1/20) (5, 1001/1000) false
      (fun _ => (1/2, 1/100)) (fun _ _ => FitResult.failure)).1 (by decide),
   (c2_missing_self_d [1] (1/20) (5, 1001/1000) false
      (fun _ => (1/100, 1/2)) (fun _ _ => FitResult.failure)).2
      (initState [1] (1/20) (5, 1001/1000) false, seedOrders 0) (by decide)⟩

/-- Witness for the amended C3: a length-2 series with candidate `(0,0,0)`
and trend `"nc"` has denominator 0 and raises `ZeroDivisionError`; a
length-1 series makes the denominator negative and the corrected value
drops below the raw AIC. -/
theorem c3_amended_witness :
    _correct_aic (initState [0, 0] (1/20) (5, 1001/1000) false) ⟨0, 0, 0⟩
      Trend.nc 0 = .error .zeroDivisionError ∧
    aiccVal (initState ([0] : List ℚ) (1/20) (5, 1001/1000) false).ts.length
      ⟨0, 0, 0⟩ Trend.nc 0 < 0 :=
  ⟨((c3_amended_degenerate_correction
      (initState [0, 0] (1/20) (5, 1001/1000) false) ⟨0, 0, 0⟩ Trend.nc 0
      (by decide) (by decide)).1 (by decide)).1,
   ((c3_amended_degenerate_correction
      (initState [0] (1/20) (5, 1001/1000) false) ⟨0, 0, 0⟩ Trend.nc 0
      (by decide) (by decide)).2 (by decide)).2⟩

/-- Witness for C5: a single passing evaluation (length-10 series,
candidate `(1,0,0)` with constant trend, raw AIC 100, root moduli 2)
makes the incumbent AICc `104`, the minimum of the passing list. -/
theorem c5_witness :
    ({ initState ([0, 0, 0, 0, 0, 0, 0, 0, 0, 0] : List ℚ) (1/20)
          (5, 1001/1000) false with
       model := some ⟨100, [2], [2]⟩
       order := ⟨1, 0, 0, Trend.c⟩
       aicc := ((104 : ℚ) : WithTop ℚ) } : HKState).aicc =
      minWithTop (passingAiccs 10 (1001/1000)
        [⟨⟨1, 0, 0⟩, Trend.c, ⟨100, [2], [2]⟩⟩]) :=
  (c5_incumbent_aicc_is_min [0, 0, 0, 0, 0, 0, 0, 0, 0, 0] (1/20)
      (5, 1001/1000) false [⟨⟨1, 0, 0⟩, Trend.c, ⟨100, [2], [2]⟩⟩]
      { initState [0, 0, 0, 0, 0, 0, 0, 0, 0, 0] (1/20)
          (5, 1001/1000) false with
        model := some ⟨100, [2], [2]⟩
        order := ⟨1, 0, 0, Trend.c⟩
        aicc := ((104 : ℚ) : WithTop ℚ) }
      (by decide)).1

/-- Witness for C6: the model accepted in the one-event run of the C5
witness has all root moduli (= 2) above the bound `1001/1000`. -/
theorem c6_witness :
    (∀ r ∈ (FittedModel.mk 100 [2] [2]).arRootModuli,
      (1001/1000 : ℚ) < r) ∧
    (∀ r ∈ (FittedModel.mk 100 [2] [2]).maRootModuli,
      (1001/1000 : ℚ) < r) :=
  (c6_accepted_roots_exceed_bound [0, 0, 0, 0, 0, 0, 0, 0, 0, 0] (1/20)
      (5, 1001/1000) false [⟨⟨1, 0, 0⟩, Trend.c, ⟨100, [2], [2]⟩⟩]
      { initState [0, 0, 0, 0, 0, 0, 0, 0, 0, 0] (1/20)
          (5, 1001/1000) false with
        model := some ⟨100, [2], [2]⟩
        order := ⟨1, 0, 0, Trend.c⟩
        aicc := ((104 : ℚ) : WithTop ℚ) } (by decide)).1
    ⟨100, [2], [2]⟩ rfl

/-- Witness for C8: a length-10 series with candidate `(1,0,1)` and
constant trend has `m = 4`, denominator `5 > 0`; the corrector returns
the formula value and it is at least the raw AIC. -/
theorem c8_witness :
    _correct_aic (initState [0, 0, 0, 0, 0, 0, 0, 0, 0, 0] (1/20)
        (5, 1001/1000) false) ⟨1, 0, 1⟩ Trend.c 100 =
      .ok (100 + ((2 * mOf ⟨1, 0, 1⟩ Trend.c *
          (mOf ⟨1, 0, 1⟩ Trend.c + 1) : Int) : ℚ) /
        ((denomOf 10 ⟨1, 0, 1⟩ Trend.c : Int) : ℚ)) ∧
    (100 : ℚ) ≤ 100 + ((2 * mOf ⟨1, 0, 1⟩ Trend.c *
        (mOf ⟨1, 0, 1⟩ Trend.c + 1) : Int) : ℚ) /
      ((denomOf 10 ⟨1, 0, 1⟩ Trend.c : Int) : ℚ) :=
  ⟨(c8_aicc_formula_and_nonneg_correction
      (initState [0, 0, 0, 0, 0, 0, 0, 0, 0, 0] (1/20) (5, 1001/1000) false)
      ⟨1, 0, 1⟩ Trend.c 100 (by decide) (by decide)).1 (by decide),
   (c8_aicc_formula_and_nonneg_correction
      (initState [0, 0, 0, 0, 0, 0, 0, 0, 0, 0] (1/20) (5, 1001/1000) false)
      ⟨1, 0, 1⟩ Trend.c 100 (by decide) (by decide)).2 (by decide) _
     ((c8_aicc_formula_and_nonneg_correction
      (initState [0, 0, 0, 0, 0, 0, 0, 0, 0, 0] (1/20) (5, 1001/1000) false)
      ⟨1, 0, 1⟩ Trend.c 100 (by decide) (by decide)).1 (by decide))⟩

/-- Witness for C9: with a collaborator that always fails, the failing
candidate `(1,0,1)` with constant trend leaves the state unchanged in the
seed-phase body and in the grid-phase body. -/
theorem c9_witness :
    tryFit (fun _ _ => FitResult.failure)
      (initState [1] (1/20) (5, 1001/1000) false) ⟨1, 0, 1⟩ Trend.c =
      .ok (initState [1] (1/20) (5, 1001/1000) false) ∧
    gridStep (fun _ _ => FitResult.failure) 0
      (initState [1] (1/20) (5, 1001/1000) false, []) 1 1 Trend.c =
      .ok (initState [1] (1/20) (5, 1001/1000) false, []) :=
  ⟨(c9_fit_failure_recovered (fun _ _ => FitResult.failure)
      (initState [1] (1/20) (5, 1001/1000) false) 1 0 1 Trend.c rfl).1,
   (c9_fit_failure_recovered (fun _ _ => FitResult.failure)
      (initState [1] (1/20) (5, 1001/1000) false) 1 0 1 Trend.c rfl).2.1 []⟩

/-- Witness for C10: the one-event run of the C5 witness has a final
incumbent AICc (104) not above the starting sentinel `+∞`. -/
theorem c10_witness :
    ({ initState ([0, 0, 0, 0, 0, 0, 0, 0, 0, 0] : List ℚ) (1/20)
          (5, 1001/1000) false with
       model := some ⟨100, [2], [2]⟩
       order := ⟨1, 0, 0, Trend.c⟩
       aicc := ((104 : ℚ) : WithTop ℚ) } : HKState).aicc ≤
      (initState ([0, 0, 0, 0, 0, 0, 0, 0, 0, 0] : List ℚ) (1/20)
        (5, 1001/1000) false).aicc :=
  (c10_aicc_monotone_and_strict_ties
      (initState [0, 0, 0, 0, 0, 0, 0, 0, 0, 0] (1/20) (5, 1001/1000) false)
      [⟨⟨1, 0, 0⟩, Trend.c, ⟨100, [2], [2]⟩⟩]
      { initState [0, 0, 0, 0, 0, 0, 0, 0, 0, 0] (1/20)
          (5, 1001/1000) false with
        model := some ⟨100, [2], [2]⟩
        order := ⟨1, 0, 0, Trend.c⟩
        aicc := ((104 : ℚ) : WithTop ℚ) } (by decide)).1

end HK
